import Mathlib

/-!
# Verification of the trading simulator (`simulator.py`, `models.py`)

Shallow embedding of the execution / position-accounting engine.

Modelling conventions:
* Python `float` prices, cash and PnL are embedded as `ℚ` (exact arithmetic).
* `np.nan` ("price unavailable") is embedded as `Option ℚ` with `none` for NaN:
  `get_market_price` returns `Except SimError (Option ℚ)` where `.error` models a
  raised `KeyError`/`IndexError` and `.ok none` models a returned NaN.
* Pandas timestamps are embedded as `Nat` (ordered); each token's data frame is a
  list of `(Minute, Close)` rows.  `MarketDataLoader._load_market_data` sorts every
  frame by its index (`.sort_index()`), so `df.loc[:ts]["Close"].iloc[-1]` is the
  last row whose timestamp is `≤ ts`, embedded as `filter` + `getLast?`.
* Python `dict` (insertion-ordered, unique keys) is embedded as an association
  list with `dictGet` / `dictSet` / `dictErase` below.
* Mutating methods are embedded as state transformers
  `Simulator → ... → Except (SimError × Simulator) (Simulator × α)`: a raised
  exception carries the engine state as mutated up to the raise point, exactly as
  a Python caller observes it after catching the exception.
-/

/-- Exceptions raised by the simulator (`KeyError`, `IndexError`, and the two
`ValueError`s of `place_order`). -/
inductive SimError where
  | keyError      -- `KeyError` (token not in market data / dict lookup miss)
  | indexError    -- `IndexError("Time index out of bounds")`
  | invalidSide   -- `ValueError("side must be 'BUY' or 'SELL'")`
  | noPriceForOrder -- `ValueError("No price available for token ... at index ...")`
deriving DecidableEq, Repr

/-- Python `str.upper()` on the ASCII side strings: upper-case every character. -/
def pyUpper (s : String) : String := ⟨s.data.map Char.toUpper⟩

/-- `models.Order`: record of one fill (fields used by the simulator). -/
structure Order where
  order_id : Nat
  token : Int
  symbol : String
  side : String
  quantity : Int
  price : ℚ
  executed_price : ℚ
  timestamp : Nat
  filled_time : Nat
  status : String
deriving DecidableEq, Repr

/-- `models.Position`: an open position in a single instrument. -/
structure Position where
  token : Int
  symbol : String
  side : String        -- "LONG" or "SHORT"
  quantity : Int
  entry_price : ℚ
  entry_time : Nat
  stop_loss : Option ℚ := none
  target : Option ℚ := none
  exit_price : Option ℚ := none
  exit_time : Option Nat := none
  realised_pnl : ℚ := 0
  margin_required : ℚ := 0
deriving DecidableEq, Repr

/-- `models.Position.update_pnl`: mark-to-market PnL at `current_price`. -/
def Position.update_pnl (p : Position) (current_price : ℚ) : ℚ :=
  if pyUpper p.side = "LONG" then (current_price - p.entry_price) * p.quantity
  else (p.entry_price - current_price) * p.quantity

/-- `models.TradeLog`: record of a completed trade. -/
structure TradeLog where
  instrument : String
  side : String
  entry_time : Nat
  exit_time : Nat
  entry_price : ℚ
  exit_price : ℚ
  quantity : Int
  pnl : ℚ
deriving DecidableEq, Repr

/-- Python `dict` lookup (`d.get(k)` / `d[k]`): first (unique) matching key. -/
def dictGet {α : Type} (l : List (Int × α)) (k : Int) : Option α :=
  match l with
  | [] => none
  | (k', v) :: rest => if k' = k then some v else dictGet rest k

/-- Python `d[k] = v`: update in place when the key exists, else append. -/
def dictSet {α : Type} (l : List (Int × α)) (k : Int) (v : α) : List (Int × α) :=
  match l with
  | [] => [(k, v)]
  | (k', v') :: rest => if k' = k then (k', v) :: rest else (k', v') :: dictSet rest k v

/-- Python `del d[k]`: remove the (unique) matching key. -/
def dictErase {α : Type} (l : List (Int × α)) (k : Int) : List (Int × α) :=
  match l with
  | [] => []
  | (k', v') :: rest => if k' = k then rest else (k', v') :: dictErase rest k

/-- `simulator.Simulator`: engine state (the fields `__init__` sets up; the
pre-loaded `data_by_token` is the token → sorted `(Minute, Close)` rows map). -/
structure Simulator where
  market_data : List (Int × List (Nat × ℚ))
  starting_cash : ℚ
  cash : ℚ
  slippage : ℚ
  max_daily_loss : Option ℚ
  order_id_counter : Nat
  orders : List Order
  positions : List (Int × Position)
  trade_log : List TradeLog
  time_index : Option (List Nat)
  current_index : Option Nat
deriving DecidableEq, Repr

/-- `Simulator.__init__`: fresh engine over pre-loaded market data. -/
def Simulator.init (market_data : List (Int × List (Nat × ℚ)))
    (starting_cash : ℚ := 1000000) (slippage : ℚ := 0)
    (max_daily_loss : Option ℚ := none) : Simulator :=
  { market_data := market_data
    starting_cash := starting_cash
    cash := starting_cash
    slippage := slippage
    max_daily_loss := max_daily_loss
    order_id_counter := 1
    orders := []
    positions := []
    trade_log := []
    time_index := none
    current_index := none }

/-- `Simulator.set_time_index`. -/
def Simulator.set_time_index (s : Simulator) (index : List Nat) : Simulator :=
  { s with time_index := some index, current_index := some 0 }

/-- `df.loc[:ts]["Close"].iloc[-1]` on a frame sorted ascending by `Minute`:
the last close at or before `ts`; `none` when the slice is empty (the
`except` branch of `get_market_price`, which yields NaN). -/
def lastCloseUpTo (rows : List (Nat × ℚ)) (ts : Nat) : Option ℚ :=
  ((rows.filter (fun r => r.1 ≤ ts)).getLast?).map Prod.snd

/-- `Simulator.get_market_price`: last available close for `token` up to bar
`dt_index`.  Raises `KeyError` for an unknown token, `IndexError` when the
time index is unset or `dt_index` is out of bounds; returns NaN (`none`) when
no row exists at or before the bar's timestamp. -/
def Simulator.get_market_price (s : Simulator) (token : Int) (dt_index : Nat) :
    Except SimError (Option ℚ) :=
  match dictGet s.market_data token with
  | none => .error .keyError
  | some df =>
    match s.time_index with
    | none => .error .indexError
    | some ti =>
      if h : dt_index < ti.length then
        .ok (lastCloseUpTo df (ti.get ⟨dt_index, h⟩))
      else .error .indexError

/-- `Simulator._record_trade`: append the finalised position to the trade log
(no-op when `exit_time` is unset). -/
def Simulator.record_trade (s : Simulator) (pos : Position) : Simulator :=
  match pos.exit_time with
  | none => s
  | some et =>
    let trade : TradeLog :=
      { instrument := pos.symbol
        side := pos.side
        entry_time := pos.entry_time
        exit_time := et
        entry_price := pos.entry_price
        exit_price := pos.exit_price.getD 0
        quantity := pos.quantity
        pnl := pos.realised_pnl }
    { s with trade_log := s.trade_log ++ [trade] }

/-- Lines 124–170 of `simulator.py`: reconcile the fill against any existing
position for the token.  `s` is the state after the cash/order updates, `side`
is already upper-cased, `ts` the bar timestamp. -/
def Simulator.reconcile_position (s : Simulator) (token : Int) (symbol : String)
    (side : String) (quantity : Int) (fill_price : ℚ) (ts : Nat) : Simulator :=
  match dictGet s.positions token with
  | none =>
    -- No existing position: create a new one with the trade details.
    let new_side := if side = "BUY" then "LONG" else "SHORT"
    let newpos : Position :=
      { token := token, symbol := symbol, side := new_side, quantity := quantity
        entry_price := fill_price, entry_time := ts }
    { s with positions := dictSet s.positions token newpos }
  | some pos =>
    if pos.side = "LONG" then
      if side = "BUY" then
        -- Averaging up an existing long position.
        let total_qty := pos.quantity + quantity
        let pos' :=
          { pos with
            entry_price := (pos.entry_price * pos.quantity + fill_price * quantity) / total_qty
            quantity := total_qty }
        { s with positions := dictSet s.positions token pos' }
      else
        -- Selling against a long reduces the position size.
        let pnl := (fill_price - pos.entry_price) * quantity
        let pos := { pos with quantity := pos.quantity - quantity
                              realised_pnl := pos.realised_pnl + pnl }
        if pos.quantity = 0 then
          let pos := { pos with exit_price := some fill_price, exit_time := some ts }
          let s := s.record_trade pos
          { s with positions := dictErase s.positions token }
        else
          { s with positions := dictSet s.positions token pos }
    else  -- SHORT
      if side = "SELL" then
        -- Adding to an existing short position.
        let total_qty := pos.quantity + quantity
        let pos' :=
          { pos with
            entry_price := (pos.entry_price * pos.quantity + fill_price * quantity) / total_qty
            quantity := total_qty }
        { s with positions := dictSet s.positions token pos' }
      else
        -- Buying back against a short position.
        let pnl := (pos.entry_price - fill_price) * quantity
        let pos := { pos with quantity := pos.quantity - quantity
                              realised_pnl := pos.realised_pnl + pnl }
        if pos.quantity = 0 then
          let pos := { pos with exit_price := some fill_price, exit_time := some ts }
          let s := s.record_trade pos
          { s with positions := dictErase s.positions token }
        else
          { s with positions := dictSet s.positions token pos }

/-- Lines 102–103 of `simulator.py`: proportional slippage applied to the side
(`side` here is already upper-cased). -/
def fillPrice (s : Simulator) (sideU : String) (price : ℚ) : ℚ :=
  let slip := s.slippage * price
  if sideU = "BUY" then price + slip else price - slip

/-- Lines 110–121 of `simulator.py`: the immediately-filled `Order` record. -/
def Simulator.filled_order (s : Simulator) (token : Int) (symbol sideU : String)
    (quantity : Int) (price fill_price : ℚ) (ts : Nat) : Order :=
  { order_id := s.order_id_counter, token := token, symbol := symbol
    side := sideU, quantity := quantity, price := price
    executed_price := fill_price, timestamp := ts, filled_time := ts
    status := "FILLED" }

/-- Lines 104–123 of `simulator.py`: cash update (subtract cost on BUY, add
proceeds on SELL), order-id bump, order append. -/
def Simulator.book_order (s : Simulator) (sideU : String) (quantity : Int)
    (fill_price : ℚ) (order : Order) : Simulator :=
  let cost := fill_price * quantity
  { s with cash := if sideU = "BUY" then s.cash - cost else s.cash + cost
           order_id_counter := s.order_id_counter + 1
           orders := s.orders ++ [order] }

/-- The bar timestamp `self.time_index[dt_index]` (callers guarantee bounds,
since `get_market_price` has already checked them). -/
def barTs (s : Simulator) (dt_index : Nat) : Nat := (s.time_index.getD []).getD dt_index 0

/-- `Simulator.place_order`: fill a market order at the latest price, update
cash, record the `Order`, and reconcile the position.  Both `raise` sites
precede every state mutation, so each `.error` carries the state at the raise
point (which is the input state). -/
def Simulator.place_order (s : Simulator) (token : Int) (symbol : String)
    (side : String) (quantity : Int) (dt_index : Nat) :
    Except (SimError × Simulator) (Simulator × Order) :=
  let side := pyUpper side
  if side = "BUY" ∨ side = "SELL" then
    match s.get_market_price token dt_index with
    | .error e => .error (e, s)
    | .ok none => .error (.noPriceForOrder, s)  -- np.isnan(price)
    | .ok (some price) =>
      let fill_price := fillPrice s side price
      -- `self.time_index[dt_index]`: in bounds because `get_market_price` succeeded.
      let ts := barTs s dt_index
      let order := s.filled_order token symbol side quantity price fill_price ts
      let s₁ := s.book_order side quantity fill_price order
      .ok (s₁.reconcile_position token symbol side quantity fill_price ts, order)
  else
    .error (.invalidSide, s)

/-- The loop body of `Simulator.square_off_all` over the snapshot of open
tokens (`list(self.positions.keys())`): `self.positions[token]` raises
`KeyError` when absent, then one opposing full-quantity order per token. -/
def Simulator.square_off_loop (s : Simulator) (tokens : List Int) (dt_index : Nat) :
    Except (SimError × Simulator) Simulator :=
  match tokens with
  | [] => .ok s
  | token :: rest =>
    match dictGet s.positions token with
    | none => .error (.keyError, s)
    | some pos =>
      match s.place_order token pos.symbol (if pos.side = "LONG" then "SELL" else "BUY")
          pos.quantity dt_index with
      | .error e => .error e
      | .ok (s', _) => s'.square_off_loop rest dt_index

/-- `Simulator.square_off_all`: close every open position with market orders. -/
def Simulator.square_off_all (s : Simulator) (dt_index : Nat) :
    Except (SimError × Simulator) Simulator :=
  s.square_off_loop (s.positions.map Prod.fst) dt_index

/-- The loop of `Simulator.mark_to_market` over the open positions: skip NaN
prices, accumulate `update_pnl`; a `KeyError`/`IndexError` from
`get_market_price` propagates. -/
def Simulator.mtm_loop (s : Simulator) (ps : List (Int × Position)) (dt_index : Nat)
    (total : ℚ) : Except (SimError × Simulator) (Simulator × ℚ) :=
  match ps with
  | [] => .ok (s, total)
  | (token, pos) :: rest =>
    match s.get_market_price token dt_index with
    | .error e => .error (e, s)
    | .ok none => s.mtm_loop rest dt_index total
    | .ok (some price) => s.mtm_loop rest dt_index (total + pos.update_pnl price)

/-- `Simulator.mark_to_market`: total unrealised PnL of the open positions. -/
def Simulator.mark_to_market (s : Simulator) (dt_index : Nat) :
    Except (SimError × Simulator) (Simulator × ℚ) :=
  s.mtm_loop s.positions dt_index 0

/-- `Simulator.total_equity`: cash plus unrealised PnL. -/
def Simulator.total_equity (s : Simulator) (dt_index : Nat) :
    Except (SimError × Simulator) (Simulator × ℚ) :=
  match s.mark_to_market dt_index with
  | .error e => .error e
  | .ok (s', m) => .ok (s', s.cash + m)

/-- `Simulator.check_max_loss`: `False` when no threshold is configured,
otherwise whether `starting_cash - total_equity ≥ max_daily_loss`. -/
def Simulator.check_max_loss (s : Simulator) (dt_index : Nat) :
    Except (SimError × Simulator) (Simulator × Bool) :=
  match s.max_daily_loss with
  | none => .ok (s, false)
  | some m =>
    match s.total_equity dt_index with
    | .error e => .error e
    | .ok (s', equity) => .ok (s', decide (s.starting_cash - equity ≥ m))

/-- Decidable equality of `Except` results, for concrete evaluations. -/
instance exceptDecidableEq {ε α : Type} [DecidableEq ε] [DecidableEq α] :
    DecidableEq (Except ε α) := fun a b =>
  match a, b with
  | .error e, .error e' =>
    if h : e = e' then isTrue (by rw [h]) else isFalse (fun hc => h (by cases hc; rfl))
  | .ok v, .ok v' =>
    if h : v = v' then isTrue (by rw [h]) else isFalse (fun hc => h (by cases hc; rfl))
  | .error _, .ok _ => isFalse (fun hc => Except.noConfusion hc)
  | .ok _, .error _ => isFalse (fun hc => Except.noConfusion hc)

/-! ## Specification-side vocabulary and concrete states -/

/-- The invariant claimed by the spec: every `Position` present in the
open-position mapping has strictly positive quantity. -/
def posInvariant (s : Simulator) : Prop := ∀ kp ∈ s.positions, 0 < kp.2.quantity

/-- Driver: a sequence of `place_order` calls on one token with a fixed side;
each element of `steps` is the (quantity, bar index) of one call.  A raised
exception aborts the rest of the sequence. -/
def runOrders (s : Simulator) (token : Int) (symbol side : String)
    (steps : List (Int × Nat)) : Except (SimError × Simulator) Simulator :=
  match steps with
  | [] => .ok s
  | (q, i) :: rest =>
    match s.place_order token symbol side q i with
    | .error e => .error e
    | .ok (s', _) => runOrders s' token symbol side rest

/-- The executed (slippage-adjusted) price a fill on `token` at bar `i` gets,
read from state `s` (0 when no price is available; the theorems below always
rule that case out by hypothesis).  Vocabulary for the weighted-average and
realized-PnL statements. -/
def execPriceAt (s : Simulator) (token : Int) (sideU : String) (i : Nat) : ℚ :=
  match s.get_market_price token i with
  | .ok (some price) => fillPrice s sideU price
  | _ => 0

/-- Realized PnL of one partial reduction `(quantity, bar)` of a position with
side `posSide` and entry price `entry`: `(fill − entry)·qty` for a LONG,
`(entry − fill)·qty` otherwise (lines 148 and 164 of `simulator.py`). -/
def reducePnl (s : Simulator) (token : Int) (posSide : String) (entry : ℚ)
    (st : Int × Nat) : ℚ :=
  (if posSide = "LONG" then execPriceAt s token "SELL" st.2 - entry
   else entry - execPriceAt s token "BUY" st.2) * st.1

/-- Market data with one token (1): closes 100 at bar 0 and 110 at bar 1. -/
def mdA : List (Int × List (Nat × ℚ)) := [(1, [(0, 100), (1, 110)])]

/-- Fresh engine over `mdA`: cash 1,000,000, zero slippage, no loss cap. -/
def simA : Simulator := (Simulator.init mdA 1000000 0 none).set_time_index [0, 1]

/-- The state after `BUY 10` of token 1 at bar 0 on `simA` (if it succeeded). -/
def simA_buy : Option Simulator := (simA.place_order 1 "A" "BUY" 10 0).toOption.map Prod.fst

/-- The state after the subsequent `SELL 10` at bar 1. -/
def simA_sell : Option Simulator :=
  simA_buy.bind fun s => (s.place_order 1 "A" "SELL" 10 1).toOption.map Prod.fst

/-- The state after `BUY 10` at bar 0 followed by an oversized `SELL 15` at bar 1. -/
def simA_oversell : Option Simulator :=
  simA_buy.bind fun s => (s.place_order 1 "A" "SELL" 15 1).toOption.map Prod.fst

/-- The order produced by `BUY 10` of token 1 at bar 0 on `simA`. -/
def orderA : Order :=
  { order_id := 1, token := 1, symbol := "A", side := "BUY", quantity := 10,
    price := 100, executed_price := 100, timestamp := 0, filled_time := 0,
    status := "FILLED" }

/-- The open long position after that order. -/
def posA : Position :=
  { token := 1, symbol := "A", side := "LONG", quantity := 10,
    entry_price := 100, entry_time := 0 }

/-- The full engine state after that order. -/
def simA1 : Simulator :=
  { market_data := mdA, starting_cash := 1000000, cash := 999000, slippage := 0,
    max_daily_loss := none, order_id_counter := 2, orders := [orderA],
    positions := [(1, posA)], trade_log := [], time_index := some [0, 1],
    current_index := some 0 }

/-- The order produced by the subsequent `SELL 10` at bar 1. -/
def orderS : Order :=
  { order_id := 2, token := 1, symbol := "A", side := "SELL", quantity := 10,
    price := 110, executed_price := 110, timestamp := 1, filled_time := 1,
    status := "FILLED" }

/-- The trade-log entry the engine records when that SELL closes the long.
Note `quantity := 0`: `_record_trade` copies `pos.quantity`, which is 0 at
record time. -/
def tradeA : TradeLog :=
  { instrument := "A", side := "LONG", entry_time := 0, exit_time := 1,
    entry_price := 100, exit_price := 110, quantity := 0, pnl := 100 }

/-- The full engine state after BUY 10 @100 then SELL 10 @110. -/
def simA2 : Simulator :=
  { market_data := mdA, starting_cash := 1000000, cash := 1000100, slippage := 0,
    max_daily_loss := none, order_id_counter := 3, orders := [orderA, orderS],
    positions := [], trade_log := [tradeA], time_index := some [0, 1],
    current_index := some 0 }

/-- A position on token 2, for which `simBad` below has no market data. -/
def posB : Position :=
  { token := 2, symbol := "B", side := "LONG", quantity := 5,
    entry_price := 100, entry_time := 0 }

/-- An engine state holding an open position on a token (2) that has no
market data: squaring off must go through `place_order`, which raises. -/
def simBad : Simulator :=
  { market_data := mdA, starting_cash := 1000000, cash := 1000000, slippage := 0,
    max_daily_loss := none, order_id_counter := 1, orders := [],
    positions := [(2, posB)], trade_log := [], time_index := some [0, 1],
    current_index := some 0 }

/-- Engine with no market data and no open positions. -/
def sEmpty : Simulator := Simulator.init [] 1000000 0 none

/-- Engine whose only token (1) has no data row at or before the single bar
timestamp (its one close sits at time 5, after the bar at time 0). -/
def sLate : Simulator :=
  (Simulator.init [(1, [(5, 100)])] 1000000 0 none).set_time_index [0]

/-! ## Basic facts about the dictionary embedding -/

theorem pyUpper_BUY : pyUpper "BUY" = "BUY" := rfl

theorem pyUpper_SELL : pyUpper "SELL" = "SELL" := rfl

theorem dictGet_cons_self {α : Type} (k : Int) (v : α) (l : List (Int × α)) :
    dictGet ((k, v) :: l) k = some v := by
  simp [dictGet]

theorem dictGet_mem {α : Type} {l : List (Int × α)} {k : Int} {v : α}
    (h : dictGet l k = some v) : (k, v) ∈ l := by
  induction l with
  | nil => simp [dictGet] at h
  | cons hd tl ih =>
    obtain ⟨k', v'⟩ := hd
    rw [dictGet] at h
    by_cases hk : k' = k
    · subst hk
      rw [if_pos rfl] at h
      injection h with h
      subst h
      exact List.mem_cons_self _ _
    · rw [if_neg hk] at h
      exact List.mem_cons_of_mem _ (ih h)

theorem mem_dictSet {α : Type} {l : List (Int × α)} {k : Int} {v : α} {x : Int × α}
    (h : x ∈ dictSet l k v) : x = (k, v) ∨ x ∈ l := by
  induction l with
  | nil =>
    rw [dictSet] at h
    simp at h
    exact Or.inl h
  | cons hd tl ih =>
    obtain ⟨k', v'⟩ := hd
    rw [dictSet] at h
    by_cases hk : k' = k
    · subst hk
      rw [if_pos rfl] at h
      rcases List.mem_cons.mp h with h | h
      · exact Or.inl h
      · exact Or.inr (List.mem_cons_of_mem _ h)
    · rw [if_neg hk] at h
      rcases List.mem_cons.mp h with h | h
      · exact Or.inr (h ▸ List.mem_cons_self _ _)
      · rcases ih h with h' | h'
        · exact Or.inl h'
        · exact Or.inr (List.mem_cons_of_mem _ h')

theorem mem_dictErase {α : Type} {l : List (Int × α)} {k : Int} {x : Int × α}
    (h : x ∈ dictErase l k) : x ∈ l := by
  induction l with
  | nil => simp [dictErase] at h
  | cons hd tl ih =>
    obtain ⟨k', v'⟩ := hd
    rw [dictErase] at h
    by_cases hk : k' = k
    · rw [if_pos hk] at h
      exact List.mem_cons_of_mem _ h
    · rw [if_neg hk] at h
      rcases List.mem_cons.mp h with h | h
      · exact h ▸ List.mem_cons_self _ _
      · exact List.mem_cons_of_mem _ (ih h)

theorem dictErase_cons_self {α : Type} (k : Int) (v : α) (l : List (Int × α)) :
    dictErase ((k, v) :: l) k = l := by
  simp [dictErase]

theorem dictGet_dictSet_self {α : Type} (l : List (Int × α)) (k : Int) (v : α) :
    dictGet (dictSet l k v) k = some v := by
  induction l with
  | nil => simp [dictSet, dictGet]
  | cons hd tl ih =>
    obtain ⟨k', v'⟩ := hd
    rw [dictSet]
    by_cases hk : k' = k
    · rw [if_pos hk, dictGet, if_pos hk]
    · rw [if_neg hk, dictGet, if_neg hk]
      exact ih

/-! ## Frame lemmas: which fields each operation can touch -/

theorem record_trade_frame (s : Simulator) (pos : Position) :
    ∃ tl, s.record_trade pos = { s with trade_log := tl } := by
  unfold Simulator.record_trade
  split
  · exact ⟨s.trade_log, rfl⟩
  · exact ⟨_, rfl⟩

theorem reconcile_position_frame (s : Simulator) (token : Int) (symbol side : String)
    (quantity : Int) (fill_price : ℚ) (ts : Nat) :
    ∃ ps tl, s.reconcile_position token symbol side quantity fill_price ts =
      { s with positions := ps, trade_log := tl } := by
  unfold Simulator.reconcile_position Simulator.record_trade
  dsimp only
  repeat' split
  all_goals exact ⟨_, _, rfl⟩

theorem book_order_positions (s : Simulator) (sideU : String) (quantity : Int)
    (fill_price : ℚ) (order : Order) :
    (s.book_order sideU quantity fill_price order).positions = s.positions := rfl

theorem book_order_trade_log (s : Simulator) (sideU : String) (quantity : Int)
    (fill_price : ℚ) (order : Order) :
    (s.book_order sideU quantity fill_price order).trade_log = s.trade_log := rfl

theorem book_order_market_data (s : Simulator) (sideU : String) (quantity : Int)
    (fill_price : ℚ) (order : Order) :
    (s.book_order sideU quantity fill_price order).market_data = s.market_data := rfl

theorem book_order_time_index (s : Simulator) (sideU : String) (quantity : Int)
    (fill_price : ℚ) (order : Order) :
    (s.book_order sideU quantity fill_price order).time_index = s.time_index := rfl

theorem book_order_slippage (s : Simulator) (sideU : String) (quantity : Int)
    (fill_price : ℚ) (order : Order) :
    (s.book_order sideU quantity fill_price order).slippage = s.slippage := rfl

theorem book_order_orders (s : Simulator) (sideU : String) (quantity : Int)
    (fill_price : ℚ) (order : Order) :
    (s.book_order sideU quantity fill_price order).orders = s.orders ++ [order] := rfl

theorem get_market_price_congr {s s' : Simulator} (hmd : s'.market_data = s.market_data)
    (hti : s'.time_index = s.time_index) (token : Int) (i : Nat) :
    s'.get_market_price token i = s.get_market_price token i := by
  unfold Simulator.get_market_price
  rw [hmd, hti]

/-! ## Inversion lemmas for `place_order` -/

theorem place_order_ok_intro (s : Simulator) (token : Int) (symbol side : String)
    (quantity : Int) (dt_index : Nat) (price : ℚ)
    (hside : pyUpper side = "BUY" ∨ pyUpper side = "SELL")
    (hprice : s.get_market_price token dt_index = .ok (some price)) :
    s.place_order token symbol side quantity dt_index =
      .ok ((s.book_order (pyUpper side) quantity (fillPrice s (pyUpper side) price)
              (s.filled_order token symbol (pyUpper side) quantity price
                (fillPrice s (pyUpper side) price)
                (barTs s dt_index))).reconcile_position
              token symbol (pyUpper side) quantity (fillPrice s (pyUpper side) price)
              (barTs s dt_index),
            s.filled_order token symbol (pyUpper side) quantity price
              (fillPrice s (pyUpper side) price)
              (barTs s dt_index)) := by
  unfold Simulator.place_order
  simp only [hprice, if_pos hside]

theorem place_order_ok_elim {s : Simulator} {token : Int} {symbol side : String}
    {quantity : Int} {dt_index : Nat} {s' : Simulator} {o : Order}
    (h : s.place_order token symbol side quantity dt_index = .ok (s', o)) :
    (pyUpper side = "BUY" ∨ pyUpper side = "SELL") ∧
    ∃ price, s.get_market_price token dt_index = .ok (some price) ∧
      o = s.filled_order token symbol (pyUpper side) quantity price
            (fillPrice s (pyUpper side) price) (barTs s dt_index) ∧
      s' = (s.book_order (pyUpper side) quantity (fillPrice s (pyUpper side) price)
              o).reconcile_position token symbol (pyUpper side) quantity
              (fillPrice s (pyUpper side) price)
              (barTs s dt_index) := by
  unfold Simulator.place_order at h
  dsimp only at h
  by_cases hs : pyUpper side = "BUY" ∨ pyUpper side = "SELL"
  · rw [if_pos hs] at h
    split at h
    · simp at h
    · simp at h
    · rename_i price heq
      simp only [Except.ok.injEq, Prod.mk.injEq] at h
      obtain ⟨h1, h2⟩ := h
      subst h2
      exact ⟨hs, price, heq, rfl, h1.symm⟩
  · rw [if_neg hs] at h
    simp at h

theorem place_order_error_state {s : Simulator} {token : Int} {symbol side : String}
    {quantity : Int} {dt_index : Nat} {e : SimError} {s' : Simulator}
    (h : s.place_order token symbol side quantity dt_index = .error (e, s')) : s' = s := by
  unfold Simulator.place_order at h
  dsimp only at h
  by_cases hs : pyUpper side = "BUY" ∨ pyUpper side = "SELL"
  · rw [if_pos hs] at h
    split at h
    · simp only [Except.error.injEq, Prod.mk.injEq] at h; exact h.2.symm
    · simp only [Except.error.injEq, Prod.mk.injEq] at h; exact h.2.symm
    · simp at h
  · rw [if_neg hs] at h
    simp only [Except.error.injEq, Prod.mk.injEq] at h
    exact h.2.symm

/-! ## Step lemmas for `reconcile_position` -/

theorem reconcile_position_open (s : Simulator) (token : Int) (symbol side : String)
    (quantity : Int) (fill_price : ℚ) (ts : Nat)
    (hpos : dictGet s.positions token = none) :
    s.reconcile_position token symbol side quantity fill_price ts =
      { s with positions := (dictSet s.positions token
          { token := token, symbol := symbol
            side := if side = "BUY" then "LONG" else "SHORT"
            quantity := quantity, entry_price := fill_price, entry_time := ts }) } := by
  unfold Simulator.reconcile_position
  simp only [hpos]

theorem reconcile_position_avg (s : Simulator) (token : Int) (symbol : String)
    (quantity : Int) (fill_price : ℚ) (ts : Nat) (pos : Position)
    (hpos : dictGet s.positions token = some pos) :
    s.reconcile_position token symbol (if pos.side = "LONG" then "BUY" else "SELL")
        quantity fill_price ts =
      { s with positions := (dictSet s.positions token
          { pos with
            entry_price := (pos.entry_price * pos.quantity + fill_price * quantity) /
              (pos.quantity + quantity)
            quantity := pos.quantity + quantity }) } := by
  by_cases hl : pos.side = "LONG"
  · unfold Simulator.reconcile_position
    simp [hpos, hl]
  · unfold Simulator.reconcile_position
    simp [hpos, hl]

theorem reconcile_position_reduce (s : Simulator) (token : Int) (symbol : String)
    (quantity : Int) (fill_price : ℚ) (ts : Nat) (pos : Position)
    (hpos : dictGet s.positions token = some pos)
    (hq : pos.quantity - quantity ≠ 0) :
    s.reconcile_position token symbol (if pos.side = "LONG" then "SELL" else "BUY")
        quantity fill_price ts =
      { s with positions := (dictSet s.positions token
          { pos with
            quantity := pos.quantity - quantity
            realised_pnl := pos.realised_pnl +
              (if pos.side = "LONG" then fill_price - pos.entry_price
               else pos.entry_price - fill_price) * quantity }) } := by
  by_cases hl : pos.side = "LONG"
  · unfold Simulator.reconcile_position
    simp [hpos, hl, hq]
  · unfold Simulator.reconcile_position
    simp [hpos, hl, hq]

theorem reconcile_position_close (s : Simulator) (token : Int) (symbol : String)
    (quantity : Int) (fill_price : ℚ) (ts : Nat) (pos : Position)
    (hpos : dictGet s.positions token = some pos)
    (hq : pos.quantity - quantity = 0) :
    s.reconcile_position token symbol (if pos.side = "LONG" then "SELL" else "BUY")
        quantity fill_price ts =
      { s with positions := dictErase s.positions token
               trade_log := (s.trade_log ++
                 [{ instrument := pos.symbol, side := pos.side
                    entry_time := pos.entry_time, exit_time := ts
                    entry_price := pos.entry_price, exit_price := fill_price
                    quantity := pos.quantity - quantity
                    pnl := pos.realised_pnl +
                      (if pos.side = "LONG" then fill_price - pos.entry_price
                       else pos.entry_price - fill_price) * quantity }]) } := by
  by_cases hl : pos.side = "LONG"
  · unfold Simulator.reconcile_position Simulator.record_trade
    simp [hpos, hl, hq]
  · unfold Simulator.reconcile_position Simulator.record_trade
    simp [hpos, hl, hq]

/-! ## Step lemmas for `place_order` -/

theorem place_order_close_spec (s : Simulator) (token : Int) (symbol : String)
    (quantity : Int) (i : Nat) (price : ℚ) (pos : Position)
    (hpos : dictGet s.positions token = some pos)
    (hq : pos.quantity - quantity = 0)
    (hprice : s.get_market_price token i = .ok (some price)) :
    ∃ s' o,
      s.place_order token symbol (if pos.side = "LONG" then "SELL" else "BUY")
          quantity i = .ok (s', o) ∧
      s'.positions = dictErase s.positions token ∧
      (∃ t : TradeLog, s'.trade_log = s.trade_log ++ [t] ∧
        t.pnl = pos.realised_pnl +
          (if pos.side = "LONG" then fillPrice s "SELL" price - pos.entry_price
           else pos.entry_price - fillPrice s "BUY" price) * quantity) ∧
      s'.market_data = s.market_data ∧ s'.time_index = s.time_index ∧
      s'.slippage = s.slippage ∧ s'.starting_cash = s.starting_cash ∧
      o.side = (if pos.side = "LONG" then "SELL" else "BUY") ∧
      o.quantity = quantity ∧ s'.orders = s.orders ++ [o] := by
  by_cases hl : pos.side = "LONG"
  · simp only [hl, String.reduceEq, reduceIte]
    have hintro := place_order_ok_intro s token symbol "SELL" quantity i price
        (Or.inr pyUpper_SELL) hprice
    rw [pyUpper_SELL] at hintro
    have hpos' : dictGet (s.book_order "SELL" quantity (fillPrice s "SELL" price)
        (s.filled_order token symbol "SELL" quantity price (fillPrice s "SELL" price)
          (barTs s i))).positions token = some pos := hpos
    have hrec := reconcile_position_close _ token symbol quantity (fillPrice s "SELL" price)
        (barTs s i) pos hpos' hq
    simp only [hl, String.reduceEq, reduceIte, book_order_positions, book_order_trade_log] at hrec
    rw [hrec] at hintro
    exact ⟨_, _, hintro, rfl, ⟨_, rfl, rfl⟩, rfl, rfl, rfl, rfl, rfl, rfl, rfl⟩
  · simp only [if_neg hl]
    have hintro := place_order_ok_intro s token symbol "BUY" quantity i price
        (Or.inl pyUpper_BUY) hprice
    rw [pyUpper_BUY] at hintro
    have hpos' : dictGet (s.book_order "BUY" quantity (fillPrice s "BUY" price)
        (s.filled_order token symbol "BUY" quantity price (fillPrice s "BUY" price)
          (barTs s i))).positions token = some pos := hpos
    have hrec := reconcile_position_close _ token symbol quantity (fillPrice s "BUY" price)
        (barTs s i) pos hpos' hq
    simp only [if_neg hl, book_order_positions, book_order_trade_log] at hrec
    rw [hrec] at hintro
    exact ⟨_, _, hintro, rfl, ⟨_, rfl, rfl⟩, rfl, rfl, rfl, rfl, rfl, rfl, rfl⟩

theorem place_order_reduce_spec (s : Simulator) (token : Int) (symbol : String)
    (quantity : Int) (i : Nat) (price : ℚ) (pos : Position)
    (hpos : dictGet s.positions token = some pos)
    (hq : pos.quantity - quantity ≠ 0)
    (hprice : s.get_market_price token i = .ok (some price)) :
    ∃ s' o,
      s.place_order token symbol (if pos.side = "LONG" then "SELL" else "BUY")
          quantity i = .ok (s', o) ∧
      s'.positions = (dictSet s.positions token
        { pos with
          quantity := pos.quantity - quantity
          realised_pnl := pos.realised_pnl +
            (if pos.side = "LONG" then fillPrice s "SELL" price - pos.entry_price
             else pos.entry_price - fillPrice s "BUY" price) * quantity }) ∧
      s'.trade_log = s.trade_log ∧ s'.market_data = s.market_data ∧
      s'.time_index = s.time_index ∧ s'.slippage = s.slippage ∧
      s'.starting_cash = s.starting_cash ∧ s'.orders.length = s.orders.length + 1 := by
  by_cases hl : pos.side = "LONG"
  · simp only [hl, String.reduceEq, reduceIte]
    have hintro := place_order_ok_intro s token symbol "SELL" quantity i price
        (Or.inr pyUpper_SELL) hprice
    rw [pyUpper_SELL] at hintro
    have hpos' : dictGet (s.book_order "SELL" quantity (fillPrice s "SELL" price)
        (s.filled_order token symbol "SELL" quantity price (fillPrice s "SELL" price)
          (barTs s i))).positions token = some pos := hpos
    have hrec := reconcile_position_reduce _ token symbol quantity (fillPrice s "SELL" price)
        (barTs s i) pos hpos' hq
    simp only [hl, String.reduceEq, reduceIte, book_order_positions, book_order_trade_log] at hrec
    rw [hrec] at hintro
    refine ⟨_, _, hintro, rfl, rfl, rfl, rfl, rfl, rfl, ?_⟩
    simp [Simulator.book_order]
  · simp only [if_neg hl]
    have hintro := place_order_ok_intro s token symbol "BUY" quantity i price
        (Or.inl pyUpper_BUY) hprice
    rw [pyUpper_BUY] at hintro
    have hpos' : dictGet (s.book_order "BUY" quantity (fillPrice s "BUY" price)
        (s.filled_order token symbol "BUY" quantity price (fillPrice s "BUY" price)
          (barTs s i))).positions token = some pos := hpos
    have hrec := reconcile_position_reduce _ token symbol quantity (fillPrice s "BUY" price)
        (barTs s i) pos hpos' hq
    simp only [if_neg hl, book_order_positions, book_order_trade_log] at hrec
    rw [hrec] at hintro
    refine ⟨_, _, hintro, rfl, rfl, rfl, rfl, rfl, rfl, ?_⟩
    simp [Simulator.book_order]

theorem place_order_open_spec (s : Simulator) (token : Int) (symbol side : String)
    (quantity : Int) (i : Nat) (price : ℚ)
    (hpos : dictGet s.positions token = none)
    (hside : pyUpper side = "BUY" ∨ pyUpper side = "SELL")
    (hprice : s.get_market_price token i = .ok (some price)) :
    ∃ s' o,
      s.place_order token symbol side quantity i = .ok (s', o) ∧
      s'.positions = (dictSet s.positions token
        { token := token, symbol := symbol
          side := if pyUpper side = "BUY" then "LONG" else "SHORT"
          quantity := quantity, entry_price := fillPrice s (pyUpper side) price
          entry_time := barTs s i }) ∧
      s'.trade_log = s.trade_log ∧ s'.market_data = s.market_data ∧
      s'.time_index = s.time_index ∧ s'.slippage = s.slippage := by
  have hintro := place_order_ok_intro s token symbol side quantity i price hside hprice
  have hpos' : dictGet (s.book_order (pyUpper side) quantity (fillPrice s (pyUpper side) price)
      (s.filled_order token symbol (pyUpper side) quantity price
        (fillPrice s (pyUpper side) price) (barTs s i))).positions token = none := hpos
  have hrec := reconcile_position_open _ token symbol (pyUpper side) quantity
      (fillPrice s (pyUpper side) price) (barTs s i) hpos'
  simp only [book_order_positions] at hrec
  rw [hrec] at hintro
  exact ⟨_, _, hintro, rfl, rfl, rfl, rfl, rfl⟩

theorem place_order_avg_spec (s : Simulator) (token : Int) (symbol : String)
    (quantity : Int) (i : Nat) (price : ℚ) (pos : Position)
    (hpos : dictGet s.positions token = some pos)
    (hprice : s.get_market_price token i = .ok (some price)) :
    ∃ s' o,
      s.place_order token symbol (if pos.side = "LONG" then "BUY" else "SELL")
          quantity i = .ok (s', o) ∧
      s'.positions = (dictSet s.positions token
        { pos with
          entry_price := (pos.entry_price * pos.quantity +
            fillPrice s (if pos.side = "LONG" then "BUY" else "SELL") price * quantity) /
            (pos.quantity + quantity)
          quantity := pos.quantity + quantity }) ∧
      s'.trade_log = s.trade_log ∧ s'.market_data = s.market_data ∧
      s'.time_index = s.time_index ∧ s'.slippage = s.slippage := by
  by_cases hl : pos.side = "LONG"
  · simp only [hl, String.reduceEq, reduceIte]
    have hintro := place_order_ok_intro s token symbol "BUY" quantity i price
        (Or.inl pyUpper_BUY) hprice
    rw [pyUpper_BUY] at hintro
    have hpos' : dictGet (s.book_order "BUY" quantity (fillPrice s "BUY" price)
        (s.filled_order token symbol "BUY" quantity price (fillPrice s "BUY" price)
          (barTs s i))).positions token = some pos := hpos
    have hrec := reconcile_position_avg _ token symbol quantity (fillPrice s "BUY" price)
        (barTs s i) pos hpos'
    simp only [hl, String.reduceEq, reduceIte, book_order_positions] at hrec
    rw [hrec] at hintro
    exact ⟨_, _, hintro, rfl, rfl, rfl, rfl, rfl⟩
  · simp only [if_neg hl]
    have hintro := place_order_ok_intro s token symbol "SELL" quantity i price
        (Or.inr pyUpper_SELL) hprice
    rw [pyUpper_SELL] at hintro
    have hpos' : dictGet (s.book_order "SELL" quantity (fillPrice s "SELL" price)
        (s.filled_order token symbol "SELL" quantity price (fillPrice s "SELL" price)
          (barTs s i))).positions token = some pos := hpos
    have hrec := reconcile_position_avg _ token symbol quantity (fillPrice s "SELL" price)
        (barTs s i) pos hpos'
    simp only [if_neg hl, book_order_positions] at hrec
    rw [hrec] at hintro
    exact ⟨_, _, hintro, rfl, rfl, rfl, rfl, rfl⟩

/-! ## `mark_to_market` / `total_equity` read only -/

theorem mtm_loop_ok_state {s : Simulator} {ps : List (Int × Position)} {i : Nat}
    {acc : ℚ} {s' : Simulator} {v : ℚ}
    (h : s.mtm_loop ps i acc = .ok (s', v)) : s' = s := by
  induction ps generalizing acc with
  | nil =>
    unfold Simulator.mtm_loop at h
    simp only [Except.ok.injEq, Prod.mk.injEq] at h
    exact h.1.symm
  | cons hd tl ih =>
    obtain ⟨token, pos⟩ := hd
    unfold Simulator.mtm_loop at h
    split at h
    · simp at h
    · exact ih h
    · exact ih h

theorem mtm_loop_error_state {s : Simulator} {ps : List (Int × Position)} {i : Nat}
    {acc : ℚ} {e : SimError} {s' : Simulator}
    (h : s.mtm_loop ps i acc = .error (e, s')) : s' = s := by
  induction ps generalizing acc with
  | nil =>
    unfold Simulator.mtm_loop at h
    simp at h
  | cons hd tl ih =>
    obtain ⟨token, pos⟩ := hd
    unfold Simulator.mtm_loop at h
    split at h
    · simp only [Except.error.injEq, Prod.mk.injEq] at h
      exact h.2.symm
    · exact ih h
    · exact ih h

theorem total_equity_ok_state {s : Simulator} {i : Nat} {s' : Simulator} {v : ℚ}
    (h : s.total_equity i = .ok (s', v)) : s' = s := by
  unfold Simulator.total_equity at h
  split at h
  · simp at h
  · rename_i s₂ m heq
    simp only [Except.ok.injEq, Prod.mk.injEq] at h
    exact h.1 ▸ mtm_loop_ok_state heq

/-! ## Further dictionary lemmas (unique keys) -/

theorem dictGet_eq_none_of_not_mem {α : Type} {l : List (Int × α)} {k : Int}
    (h : k ∉ l.map Prod.fst) : dictGet l k = none := by
  induction l with
  | nil => rfl
  | cons hd tl ih =>
    obtain ⟨k', v'⟩ := hd
    rw [dictGet]
    simp only [List.map_cons, List.mem_cons] at h
    push_neg at h
    rw [if_neg (fun hh => h.1 hh.symm)]
    exact ih h.2

theorem keys_dictSet_of_mem {α : Type} {l : List (Int × α)} {k : Int} {v₀ v : α}
    (h : dictGet l k = some v₀) :
    (dictSet l k v).map Prod.fst = l.map Prod.fst := by
  induction l with
  | nil => simp [dictGet] at h
  | cons hd tl ih =>
    obtain ⟨k', v'⟩ := hd
    rw [dictGet] at h
    rw [dictSet]
    by_cases hk : k' = k
    · rw [if_pos hk]
      simp
    · rw [if_neg hk] at h
      rw [if_neg hk]
      simp only [List.map_cons]
      rw [ih h]

theorem dictGet_dictErase_self {α : Type} {l : List (Int × α)} {k : Int}
    (hnodup : (l.map Prod.fst).Nodup) : dictGet (dictErase l k) k = none := by
  induction l with
  | nil => rfl
  | cons hd tl ih =>
    obtain ⟨k', v'⟩ := hd
    simp only [List.map_cons, List.nodup_cons] at hnodup
    rw [dictErase]
    by_cases hk : k' = k
    · rw [if_pos hk]
      subst hk
      exact dictGet_eq_none_of_not_mem hnodup.1
    · rw [if_neg hk, dictGet, if_neg hk]
      exact ih hnodup.2

/-! ## Preservation of the positive-quantity invariant -/

theorem reconcile_preserves_inv (s : Simulator) (token : Int) (symbol sideU : String)
    (quantity : Int) (fill_price : ℚ) (ts : Nat)
    (hinv : posInvariant s) (hqpos : 0 < quantity)
    (hside : sideU = "BUY" ∨ sideU = "SELL")
    (hred : ∀ pos, dictGet s.positions token = some pos →
      ((pos.side = "LONG" ∧ sideU = "SELL") ∨ (pos.side ≠ "LONG" ∧ sideU = "BUY")) →
      quantity ≤ pos.quantity) :
    posInvariant (s.reconcile_position token symbol sideU quantity fill_price ts) := by
  cases hpos : dictGet s.positions token with
  | none =>
    rw [reconcile_position_open s token symbol sideU quantity fill_price ts hpos]
    intro kp hkp
    rcases mem_dictSet hkp with h | h
    · subst h; simpa using hqpos
    · exact hinv kp h
  | some pos =>
    have hq0 : 0 < pos.quantity := hinv (token, pos) (dictGet_mem hpos)
    by_cases hl : pos.side = "LONG"
    · rcases hside with rfl | rfl
      · -- BUY into an existing LONG: averaging in keeps quantity positive.
        have havg := reconcile_position_avg s token symbol quantity fill_price ts pos hpos
        rw [if_pos hl] at havg
        rw [havg]
        intro kp hkp
        rcases mem_dictSet hkp with h | h
        · subst h; simpa using add_pos hq0 hqpos
        · exact hinv kp h
      · -- SELL against an existing LONG: reduce or close.
        have hle : quantity ≤ pos.quantity := hred pos hpos (Or.inl ⟨hl, rfl⟩)
        by_cases hz : pos.quantity - quantity = 0
        · have hcl := reconcile_position_close s token symbol quantity fill_price ts pos hpos hz
          rw [if_pos hl] at hcl
          rw [hcl]
          intro kp hkp
          exact hinv kp (mem_dictErase hkp)
        · have hrd := reconcile_position_reduce s token symbol quantity fill_price ts pos hpos hz
          rw [if_pos hl] at hrd
          rw [hrd]
          intro kp hkp
          rcases mem_dictSet hkp with h | h
          · subst h
            have hlt : quantity < pos.quantity :=
              lt_of_le_of_ne hle (fun he => hz (by rw [he, sub_self]))
            simpa using sub_pos.mpr hlt
          · exact hinv kp h
    · rcases hside with rfl | rfl
      · -- BUY against an existing SHORT: reduce or close.
        have hle : quantity ≤ pos.quantity := hred pos hpos (Or.inr ⟨hl, rfl⟩)
        by_cases hz : pos.quantity - quantity = 0
        · have hcl := reconcile_position_close s token symbol quantity fill_price ts pos hpos hz
          rw [if_neg hl] at hcl
          rw [hcl]
          intro kp hkp
          exact hinv kp (mem_dictErase hkp)
        · have hrd := reconcile_position_reduce s token symbol quantity fill_price ts pos hpos hz
          rw [if_neg hl] at hrd
          rw [hrd]
          intro kp hkp
          rcases mem_dictSet hkp with h | h
          · subst h
            have hlt : quantity < pos.quantity :=
              lt_of_le_of_ne hle (fun he => hz (by rw [he, sub_self]))
            simpa using sub_pos.mpr hlt
          · exact hinv kp h
      · -- SELL into an existing SHORT: averaging in keeps quantity positive.
        have havg := reconcile_position_avg s token symbol quantity fill_price ts pos hpos
        rw [if_neg hl] at havg
        rw [havg]
        intro kp hkp
        rcases mem_dictSet hkp with h | h
        · subst h; simpa using add_pos hq0 hqpos
        · exact hinv kp h

/-! ## Square-off: every open position is flattened -/

theorem square_off_loop_spec (ps : List (Int × Position)) :
    ∀ (s : Simulator) (i : Nat),
    s.positions = ps →
    (∀ kp ∈ ps, ∃ p, s.get_market_price kp.1 i = .ok (some p)) →
    ∃ s', s.square_off_loop (ps.map Prod.fst) i = .ok s' ∧
      s'.positions = [] ∧
      s'.trade_log.length = s.trade_log.length + ps.length ∧
      s'.orders.map (fun o => (o.side, o.quantity)) =
        s.orders.map (fun o => (o.side, o.quantity)) ++
          ps.map (fun kp => (if kp.2.side = "LONG" then "SELL" else "BUY", kp.2.quantity)) := by
  induction ps with
  | nil =>
    intro s i hs _
    exact ⟨s, rfl, hs, by simp, by simp⟩
  | cons hd tl ih =>
    obtain ⟨k, p⟩ := hd
    intro s i hs hp
    have hget : dictGet s.positions k = some p := by
      rw [hs]; exact dictGet_cons_self k p tl
    obtain ⟨pr, hpr⟩ := hp (k, p) (List.mem_cons_self _ _)
    obtain ⟨s₁, o, hord, hpos₁, ⟨t, htl, -⟩, hmd₁, hti₁, hsl₁, hsc₁, hoside, hoqty, hords⟩ :=
      place_order_close_spec s k p.symbol p.quantity i pr p hget (sub_self _) hpr
    have hs₁ : s₁.positions = tl := by
      rw [hpos₁, hs]; exact dictErase_cons_self k p tl
    have hp₁ : ∀ kp ∈ tl, ∃ p', s₁.get_market_price kp.1 i = .ok (some p') := by
      intro kp hkp
      obtain ⟨pr', hpr'⟩ := hp kp (List.mem_cons_of_mem _ hkp)
      exact ⟨pr', by rw [get_market_price_congr hmd₁ hti₁]; exact hpr'⟩
    obtain ⟨s', hloop, hpos', hlen', hords'⟩ := ih s₁ i hs₁ hp₁
    refine ⟨s', ?_, hpos', ?_, ?_⟩
    · simp only [List.map_cons, Simulator.square_off_loop, hget, hord]
      exact hloop
    · rw [hlen', htl]
      simp only [List.length_append, List.length_cons, List.length_nil]
      omega
    · rw [hords', hords]
      simp only [List.map_append, List.map_cons, List.map_nil, hoside, hoqty,
        List.append_assoc, List.singleton_append]

/-- C5 (amended): in a state where every open token has an available price at
bar `i`, `square_off_all` succeeds, leaves the open-position mapping empty,
appends exactly one TradeRecord per previously open token, and does so by
issuing one opposing full-quantity order per open position (SELL for a LONG,
BUY otherwise) through the `place_order` path.  The universal claim over every
engine state fails: see the counterexample, where an open token with no market
data makes the call raise and leave the position in place. -/
theorem C5_square_off_all (s : Simulator) (i : Nat)
    (hp : ∀ kp ∈ s.positions, ∃ p, s.get_market_price kp.1 i = .ok (some p)) :
    ∃ s', s.square_off_all i = .ok s' ∧
      s'.positions = [] ∧
      s'.trade_log.length = s.trade_log.length + s.positions.length ∧
      s'.orders.map (fun o => (o.side, o.quantity)) =
        s.orders.map (fun o => (o.side, o.quantity)) ++
          s.positions.map
            (fun kp => (if kp.2.side = "LONG" then "SELL" else "BUY", kp.2.quantity)) :=
  square_off_loop_spec s.positions s i rfl hp

/-- C5 counterexample: on `simBad`, whose one open position is on a token with
no market data, `square_off_all` raises `KeyError` out of `place_order` and
the open-position mapping is left non-empty — the claim does not hold for
every engine state. -/
theorem C5_counterexample :
    simBad.square_off_all 0 = .error (.keyError, simBad) ∧ simBad.positions ≠ [] := by
  exact ⟨by decide, by decide⟩

/-! ## Fully closing a position with a sequence of opposite-direction orders -/

theorem runOrders_close_aux (steps : List (Int × Nat)) :
    ∀ (s₀ s : Simulator) (token : Int) (symbol : String) (pos : Position),
    dictGet s.positions token = some pos →
    (s.positions.map Prod.fst).Nodup →
    s.market_data = s₀.market_data → s.time_index = s₀.time_index →
    s.slippage = s₀.slippage →
    steps ≠ [] →
    (∀ st ∈ steps, 0 < st.1) →
    (steps.map Prod.fst).sum = pos.quantity →
    (∀ st ∈ steps, ∃ p, s₀.get_market_price token st.2 = .ok (some p)) →
    ∃ s' t, runOrders s token symbol
        (if pos.side = "LONG" then "SELL" else "BUY") steps = .ok s' ∧
      dictGet s'.positions token = none ∧
      s'.trade_log = s.trade_log ++ [t] ∧
      t.pnl = pos.realised_pnl +
        (steps.map (reducePnl s₀ token pos.side pos.entry_price)).sum := by
  induction steps with
  | nil =>
    intro s₀ s token symbol pos _ _ _ _ _ hne _ _ _
    exact absurd rfl hne
  | cons st rest ih =>
    obtain ⟨q, j⟩ := st
    intro s₀ s token symbol pos hpos hnodup hmd hti hsl _ hq hsum hp
    obtain ⟨pr, hpr0⟩ := hp (q, j) (List.mem_cons_self _ _)
    have hpr : s.get_market_price token j = .ok (some pr) := by
      rw [get_market_price_congr hmd hti]; exact hpr0
    by_cases hrest : rest = []
    · subst hrest
      have hqq : pos.quantity - q = 0 := by
        simp only [List.map_cons, List.map_nil, List.sum_cons, List.sum_nil] at hsum
        omega
      obtain ⟨s₁, o, hord, hpos₁, ⟨t, htl, htp⟩, hmd₁, hti₁, hsl₁, hsc₁, -, -, -⟩ :=
        place_order_close_spec s token symbol q j pr pos hpos hqq hpr
      refine ⟨s₁, t, ?_, ?_, htl, ?_⟩
      · simp only [runOrders, hord]
      · rw [hpos₁]
        exact dictGet_dictErase_self hnodup
      · rw [htp]
        simp only [List.map_cons, List.map_nil, List.sum_cons, List.sum_nil,
          reducePnl, execPriceAt, hpr0, fillPrice, hsl, add_zero]
    · have hrpos : 0 < (rest.map Prod.fst).sum := by
        apply List.sum_pos
        · intro x hx
          obtain ⟨⟨q', j'⟩, hmem, hxeq⟩ := List.mem_map.mp hx
          exact hxeq ▸ hq (q', j') (List.mem_cons_of_mem _ hmem)
        · simpa using hrest
      have hqne : pos.quantity - q ≠ 0 := by
        simp only [List.map_cons, List.sum_cons] at hsum
        omega
      obtain ⟨s₁, o, hord, hpos₁, htl₁, hmd₁, hti₁, hsl₁, hsc₁, -⟩ :=
        place_order_reduce_spec s token symbol q j pr pos hpos hqne hpr
      have hget₁ : dictGet s₁.positions token =
          some { pos with
                 quantity := pos.quantity - q
                 realised_pnl := pos.realised_pnl +
                   (if pos.side = "LONG" then fillPrice s "SELL" pr - pos.entry_price
                    else pos.entry_price - fillPrice s "BUY" pr) * q } := by
        rw [hpos₁]; exact dictGet_dictSet_self _ _ _
      have hnodup₁ : (s₁.positions.map Prod.fst).Nodup := by
        rw [hpos₁, keys_dictSet_of_mem hpos]; exact hnodup
      have hsum₁ : (rest.map Prod.fst).sum = pos.quantity - q := by
        simp only [List.map_cons, List.sum_cons] at hsum
        omega
      obtain ⟨s', t, hrun, hnone', htl', htp'⟩ :=
        ih s₀ s₁ token symbol _ hget₁ hnodup₁ (hmd₁.trans hmd) (hti₁.trans hti)
          (hsl₁.trans hsl) hrest (fun st hst => hq st (List.mem_cons_of_mem _ hst))
          hsum₁ (fun st hst => hp st (List.mem_cons_of_mem _ hst))
      refine ⟨s', t, ?_, hnone', ?_, ?_⟩
      · simp only [runOrders, hord]
        exact hrun
      · rw [htl', htl₁]
      · rw [htp']
        dsimp only
        simp only [List.map_cons, List.sum_cons, reducePnl, execPriceAt, hpr0,
          fillPrice, hsl]
        ring

/-- C3: a Position closed entirely by a sequence of opposite-direction
`place_order` calls (positive reduction quantities summing exactly to its
quantity, a price available at each call) yields exactly one appended
TradeRecord, whose pnl is the position's accumulated realized PnL plus the
realized PnL of each partial reduction, and removes the token from the
open-position mapping. -/
theorem C3_full_close_emits_one_trade (s : Simulator) (token : Int) (symbol : String)
    (steps : List (Int × Nat)) (pos : Position)
    (hpos : dictGet s.positions token = some pos)
    (hnodup : (s.positions.map Prod.fst).Nodup)
    (hne : steps ≠ [])
    (hq : ∀ st ∈ steps, 0 < st.1)
    (hsum : (steps.map Prod.fst).sum = pos.quantity)
    (hp : ∀ st ∈ steps, ∃ p, s.get_market_price token st.2 = .ok (some p)) :
    ∃ s' t, runOrders s token symbol
        (if pos.side = "LONG" then "SELL" else "BUY") steps = .ok s' ∧
      dictGet s'.positions token = none ∧
      s'.trade_log = s.trade_log ++ [t] ∧
      t.pnl = pos.realised_pnl +
        (steps.map (reducePnl s token pos.side pos.entry_price)).sum :=
  runOrders_close_aux steps s s token symbol pos hpos hnodup rfl rfl rfl hne hq hsum hp

/-! ## Same-direction fills: weighted-average cost basis -/

theorem place_order_side_congr (s : Simulator) (token : Int) (symbol : String)
    {side side' : String} (h : pyUpper side = pyUpper side') (quantity : Int) (i : Nat) :
    s.place_order token symbol side quantity i =
      s.place_order token symbol side' quantity i := by
  unfold Simulator.place_order
  rw [h]

theorem runOrders_side_congr (steps : List (Int × Nat)) :
    ∀ (s : Simulator) (token : Int) (symbol : String) (side side' : String),
    pyUpper side = pyUpper side' →
    runOrders s token symbol side steps = runOrders s token symbol side' steps := by
  induction steps with
  | nil => intro s token symbol side side' _; rfl
  | cons st rest ih =>
    obtain ⟨q, i⟩ := st
    intro s token symbol side side' h
    rw [runOrders, runOrders, place_order_side_congr s token symbol h q i]
    cases s.place_order token symbol side' q i with
    | error e => rfl
    | ok pr => exact ih pr.1 token symbol side side' h

theorem runOrders_avg_aux (steps : List (Int × Nat)) :
    ∀ (s₀ s : Simulator) (token : Int) (symbol sideU : String) (pos : Position),
    dictGet s.positions token = some pos →
    ((pos.side = "LONG" ∧ sideU = "BUY") ∨ (pos.side ≠ "LONG" ∧ sideU = "SELL")) →
    0 < pos.quantity →
    s.market_data = s₀.market_data → s.time_index = s₀.time_index →
    s.slippage = s₀.slippage →
    (∀ st ∈ steps, 0 < st.1) →
    (∀ st ∈ steps, ∃ p, s₀.get_market_price token st.2 = .ok (some p)) →
    ∃ s' pos', runOrders s token symbol sideU steps = .ok s' ∧
      dictGet s'.positions token = some pos' ∧
      pos'.side = pos.side ∧
      pos'.quantity = pos.quantity + (steps.map Prod.fst).sum ∧
      pos'.entry_price * (pos'.quantity : ℚ) =
        pos.entry_price * (pos.quantity : ℚ) +
        (steps.map fun st => execPriceAt s₀ token sideU st.2 * (st.1 : ℚ)).sum := by
  induction steps with
  | nil =>
    intro s₀ s token symbol sideU pos hpos _ _ _ _ _ _ _
    exact ⟨s, pos, rfl, hpos, rfl, by simp, by simp⟩
  | cons st rest ih =>
    obtain ⟨q, j⟩ := st
    intro s₀ s token symbol sideU pos hpos hlink hQ hmd hti hsl hq hp
    obtain ⟨pr, hpr0⟩ := hp (q, j) (List.mem_cons_self _ _)
    have hpr : s.get_market_price token j = .ok (some pr) := by
      rw [get_market_price_congr hmd hti]; exact hpr0
    have hqpos : 0 < q := hq (q, j) (List.mem_cons_self _ _)
    have havg := place_order_avg_spec s token symbol q j pr pos hpos hpr
    have hif : (if pos.side = "LONG" then "BUY" else "SELL") = sideU := by
      rcases hlink with ⟨hl, hU⟩ | ⟨hl, hU⟩
      · rw [if_pos hl, hU]
      · rw [if_neg hl, hU]
    rw [hif] at havg
    obtain ⟨s₁, o, hord, hpos₁, htl₁, hmd₁, hti₁, hsl₁⟩ := havg
    have hget₁ : dictGet s₁.positions token =
        some { pos with
               entry_price := (pos.entry_price * pos.quantity +
                 fillPrice s sideU pr * q) / (pos.quantity + q)
               quantity := pos.quantity + q } := by
      rw [hpos₁]; exact dictGet_dictSet_self _ _ _
    obtain ⟨s', pos', hrun, hget', hside', hqty', hprod'⟩ :=
      ih s₀ s₁ token symbol sideU _ hget₁ hlink (add_pos hQ hqpos)
        (hmd₁.trans hmd) (hti₁.trans hti) (hsl₁.trans hsl)
        (fun st hst => hq st (List.mem_cons_of_mem _ hst))
        (fun st hst => hp st (List.mem_cons_of_mem _ hst))
    have hneq : ((pos.quantity : ℚ) + (q : ℚ)) ≠ 0 := by
      have hlt : (0 : ℚ) < (pos.quantity : ℚ) + (q : ℚ) := by
        exact_mod_cast add_pos hQ hqpos
      exact hlt.ne'
    refine ⟨s', pos', ?_, hget', hside', ?_, ?_⟩
    · simp only [runOrders, hord]
      exact hrun
    · dsimp only at hqty'
      simp only [List.map_cons, List.sum_cons]
      omega
    · rw [hprod']
      dsimp only
      push_cast
      rw [div_mul_cancel₀ _ hneq]
      simp only [List.map_cons, List.sum_cons, execPriceAt, hpr0, fillPrice, hsl]
      ring

/-- C4: starting from no position, a non-empty sequence of same-direction
fills on one token (all quantities positive, a price available at each call)
leaves a Position whose quantity is the sum of the fill quantities and whose
entry price is the quantity-weighted average of the executed
(slippage-adjusted) fill prices, exactly over ℚ. -/
theorem C4_weighted_average_entry (s : Simulator) (token : Int) (symbol side : String)
    (steps : List (Int × Nat))
    (hpos : dictGet s.positions token = none)
    (hside : pyUpper side = "BUY" ∨ pyUpper side = "SELL")
    (hne : steps ≠ [])
    (hq : ∀ st ∈ steps, 0 < st.1)
    (hp : ∀ st ∈ steps, ∃ p, s.get_market_price token st.2 = .ok (some p)) :
    ∃ s' pos, runOrders s token symbol side steps = .ok s' ∧
      dictGet s'.positions token = some pos ∧
      pos.side = (if pyUpper side = "BUY" then "LONG" else "SHORT") ∧
      pos.quantity = (steps.map Prod.fst).sum ∧
      pos.entry_price =
        (steps.map fun st => execPriceAt s token (pyUpper side) st.2 * (st.1 : ℚ)).sum /
          (((steps.map Prod.fst).sum : Int) : ℚ) := by
  obtain ⟨st, rest, rfl⟩ : ∃ st rest, steps = st :: rest := by
    cases steps with
    | nil => exact absurd rfl hne
    | cons a b => exact ⟨a, b, rfl⟩
  obtain ⟨q, j⟩ := st
  have hsum_pos : 0 < (((q, j) :: rest).map Prod.fst).sum := by
    apply List.sum_pos
    · intro x hx
      obtain ⟨⟨q', j'⟩, hmem, rfl⟩ := List.mem_map.mp hx
      exact hq _ hmem
    · simp
  have hTne : (((((q, j) :: rest).map Prod.fst).sum : Int) : ℚ) ≠ 0 := by
    have hlt : (0 : ℚ) < ((((q, j) :: rest).map Prod.fst).sum : ℚ) := by
      exact_mod_cast hsum_pos
    exact hlt.ne'
  obtain ⟨pr, hpr0⟩ := hp (q, j) (List.mem_cons_self _ _)
  rcases hside with hU | hU
  · rw [hU]
    simp only [String.reduceEq, reduceIte]
    rw [runOrders_side_congr ((q, j) :: rest) s token symbol side "BUY"
      (hU.trans pyUpper_BUY.symm)]
    have hopen := place_order_open_spec s token symbol "BUY" q j pr hpos
        (Or.inl pyUpper_BUY) hpr0
    rw [pyUpper_BUY] at hopen
    simp only [String.reduceEq, reduceIte] at hopen
    obtain ⟨s₁, o, hord, hpos₁, htl₁, hmd₁, hti₁, hsl₁⟩ := hopen
    have hget₁ : dictGet s₁.positions token =
        some { token := token, symbol := symbol, side := "LONG", quantity := q
               entry_price := fillPrice s "BUY" pr, entry_time := barTs s j } := by
      rw [hpos₁]; exact dictGet_dictSet_self _ _ _
    obtain ⟨s', pos', hrun, hget', hside', hqty', hprod'⟩ :=
      runOrders_avg_aux rest s s₁ token symbol "BUY" _ hget₁ (Or.inl ⟨rfl, rfl⟩)
        (hq (q, j) (List.mem_cons_self _ _)) hmd₁ hti₁ hsl₁
        (fun st hst => hq st (List.mem_cons_of_mem _ hst))
        (fun st hst => hp st (List.mem_cons_of_mem _ hst))
    have hqsum : pos'.quantity = (((q, j) :: rest).map Prod.fst).sum := by
      dsimp only at hqty'
      simp only [List.map_cons, List.sum_cons]
      omega
    refine ⟨s', pos', ?_, hget', hside', hqsum, ?_⟩
    · simp only [runOrders, hord]
      exact hrun
    · rw [eq_div_iff hTne]
      rw [show ((((((q, j) :: rest).map Prod.fst).sum : Int)) : ℚ) = (pos'.quantity : ℚ) by
        rw [hqsum]]
      rw [hprod']
      dsimp only
      simp only [List.map_cons, List.sum_cons, execPriceAt, hpr0]
      try ring
  · rw [hU]
    simp only [String.reduceEq, reduceIte]
    rw [runOrders_side_congr ((q, j) :: rest) s token symbol side "SELL"
      (hU.trans pyUpper_SELL.symm)]
    have hopen := place_order_open_spec s token symbol "SELL" q j pr hpos
        (Or.inr pyUpper_SELL) hpr0
    rw [pyUpper_SELL] at hopen
    simp only [String.reduceEq, reduceIte] at hopen
    obtain ⟨s₁, o, hord, hpos₁, htl₁, hmd₁, hti₁, hsl₁⟩ := hopen
    have hget₁ : dictGet s₁.positions token =
        some { token := token, symbol := symbol, side := "SHORT", quantity := q
               entry_price := fillPrice s "SELL" pr, entry_time := barTs s j } := by
      rw [hpos₁]; exact dictGet_dictSet_self _ _ _
    obtain ⟨s', pos', hrun, hget', hside', hqty', hprod'⟩ :=
      runOrders_avg_aux rest s s₁ token symbol "SELL" _ hget₁
        (Or.inr ⟨show ("SHORT" : String) ≠ "LONG" by decide, rfl⟩)
        (hq (q, j) (List.mem_cons_self _ _)) hmd₁ hti₁ hsl₁
        (fun st hst => hq st (List.mem_cons_of_mem _ hst))
        (fun st hst => hp st (List.mem_cons_of_mem _ hst))
    have hqsum : pos'.quantity = (((q, j) :: rest).map Prod.fst).sum := by
      dsimp only at hqty'
      simp only [List.map_cons, List.sum_cons]
      omega
    refine ⟨s', pos', ?_, hget', hside', hqsum, ?_⟩
    · simp only [runOrders, hord]
      exact hrun
    · rw [eq_div_iff hTne]
      rw [show ((((((q, j) :: rest).map Prod.fst).sum : Int)) : ℚ) = (pos'.quantity : ℚ) by
        rw [hqsum]]
      rw [hprod']
      dsimp only
      simp only [List.map_cons, List.sum_cons, execPriceAt, hpr0]
      try ring

/-! ## The loss circuit breaker and the read-only queries -/

/-- C6: `check_max_loss` returns `false` (normally, with the state unchanged)
whenever no maximum-daily-loss threshold is configured; when a threshold `m`
is configured and the call returns normally, the state is unchanged and the
result is `true` exactly when `starting_cash − total_equity ≥ m`. -/
theorem C6_check_max_loss (s : Simulator) (i : Nat) :
    (s.max_daily_loss = none → s.check_max_loss i = .ok (s, false)) ∧
    (∀ m, s.max_daily_loss = some m → ∀ s' b, s.check_max_loss i = .ok (s', b) →
      s' = s ∧ ∃ eq, s.total_equity i = .ok (s, eq) ∧
        (b = true ↔ s.starting_cash - eq ≥ m)) ∧
    (∀ e s', s.check_max_loss i = .error (e, s') → s' = s) := by
  refine ⟨?_, ?_, ?_⟩
  · intro hnone
    unfold Simulator.check_max_loss
    simp only [hnone]
  · intro m hm s' b h
    unfold Simulator.check_max_loss at h
    simp only [hm] at h
    split at h
    · simp at h
    · rename_i s₂ equity heq
      have hs₂ : s₂ = s := total_equity_ok_state heq
      subst hs₂
      simp only [Except.ok.injEq, Prod.mk.injEq] at h
      obtain ⟨h1, h2⟩ := h
      subst h1
      refine ⟨rfl, equity, heq, ?_⟩
      rw [← h2]
      simp
  · intro e s' h
    unfold Simulator.check_max_loss at h
    split at h
    · simp at h
    · split at h
      · rename_i epair heq
        simp only [Except.error.injEq] at h
        subst h
        unfold Simulator.total_equity at heq
        split at heq
        · rename_i epair₂ heq₂
          simp only [Except.error.injEq] at heq
          subst heq
          exact mtm_loop_error_state heq₂
        · simp at heq
      · simp at h

/-- C10: `mark_to_market` and `total_equity` are read-only — whenever either
returns normally, the returned engine state (cash, positions with all their
fields, orders, trade log) is the unchanged input state. -/
theorem C10_mark_to_market_read_only (s : Simulator) (i : Nat) :
    (∀ s' v, s.mark_to_market i = .ok (s', v) → s' = s) ∧
    (∀ s' v, s.total_equity i = .ok (s', v) → s' = s) := by
  exact ⟨fun s' v h => mtm_loop_ok_state h, fun s' v h => total_equity_ok_state h⟩

/-- C9: `place_order` is atomic on failure — whenever it raises, the engine
state carried at the raise point (cash, open positions, orders, trade log,
order-id counter) is exactly the pre-call state.  Both raise sites precede
every mutation. -/
theorem C9_place_order_atomic_on_failure (s : Simulator) (token : Int)
    (symbol side : String) (quantity : Int) (dt_index : Nat) (e : SimError)
    (s' : Simulator)
    (h : s.place_order token symbol side quantity dt_index = .error (e, s')) :
    s'.cash = s.cash ∧ s'.positions = s.positions ∧ s'.orders = s.orders ∧
    s'.trade_log = s.trade_log ∧ s'.order_id_counter = s.order_id_counter := by
  have hs := place_order_error_state h
  subst hs
  exact ⟨rfl, rfl, rfl, rfl, rfl⟩

/-! ## Side validation and the NaN sentinel -/

/-- C7 (amended): a side value is rejected with the invalid-side error (state
unchanged) exactly when its upper-cased form lies outside {BUY, SELL}; the
code upper-cases before validating, so e.g. "buy" is accepted. -/
theorem C7_invalid_side_rejected (s : Simulator) (token : Int) (symbol side : String)
    (quantity : Int) (dt_index : Nat)
    (h1 : pyUpper side ≠ "BUY") (h2 : pyUpper side ≠ "SELL") :
    s.place_order token symbol side quantity dt_index = .error (.invalidSide, s) := by
  unfold Simulator.place_order
  dsimp only
  rw [if_neg (fun hc => hc.elim h1 h2)]

/-- C7 counterexample: the side "buy" is outside {BUY, SELL} as written, yet
`place_order` accepts and fills it (after upper-casing) instead of rejecting. -/
theorem C7_counterexample :
    (("buy" : String) ≠ "BUY" ∧ ("buy" : String) ≠ "SELL") ∧
    (simA.place_order 1 "A" "buy" 10 0).toOption.isSome = true := by
  refine ⟨⟨by decide, by decide⟩, ?_⟩
  obtain ⟨s', o, hord, -, -, -, -, -⟩ :=
    place_order_open_spec simA 1 "A" "buy" 10 0 100 rfl (Or.inl (by decide)) (by decide)
  rw [hord]
  rfl

/-- C8 (amended): for a token that is present in the market data, with the
time index set and the bar in bounds, `get_market_price` returns the NaN
sentinel (`none`) — not an exception — when the token has no data row at or
before the bar's timestamp.  (For a token absent from the market data, or an
out-of-bounds bar, it raises instead; see the counterexample.) -/
theorem C8_no_row_returns_nan (s : Simulator) (token : Int) (i : Nat)
    (rows : List (Nat × ℚ)) (ti : List Nat)
    (hmd : dictGet s.market_data token = some rows)
    (hti : s.time_index = some ti)
    (hlen : i < ti.length)
    (hnone : ∀ r ∈ rows, ¬ r.1 ≤ ti.get ⟨i, hlen⟩) :
    s.get_market_price token i = .ok none := by
  unfold Simulator.get_market_price
  simp only [hmd, hti]
  rw [dif_pos hlen]
  unfold lastCloseUpTo
  have hfil : rows.filter (fun r => r.1 ≤ ti.get ⟨i, hlen⟩) = [] := by
    rw [List.filter_eq_nil_iff]
    intro a ha
    simpa using hnone a ha
  rw [hfil]
  rfl

/-- C8 counterexample: token 99 has no price data at all (it is absent from
the market-data mapping), yet `get_market_price` raises `KeyError` instead of
returning the NaN sentinel. -/
theorem C8_counterexample :
    dictGet simA.market_data 99 = none ∧
    simA.get_market_price 99 0 = .error .keyError ∧
    (Except.error .keyError : Except SimError (Option ℚ)) ≠ .ok none := by
  exact ⟨by decide, by decide, by decide⟩

/-! ## The concrete two-order scenario -/

theorem simA_buy_eval : simA.place_order 1 "A" "BUY" 10 0 = .ok (simA1, orderA) := by
  norm_num [simA, mdA, Simulator.init, Simulator.set_time_index, Simulator.place_order,
    Simulator.get_market_price, dictGet, lastCloseUpTo, pyUpper_BUY,
    Simulator.book_order, Simulator.filled_order, fillPrice, barTs,
    Simulator.reconcile_position, dictSet, simA1, orderA, posA]

theorem simA_sell_eval : simA1.place_order 1 "A" "SELL" 10 1 = .ok (simA2, orderS) := by
  simp [simA1, mdA, Simulator.place_order, Simulator.get_market_price, dictGet,
    lastCloseUpTo, pyUpper_SELL, Simulator.book_order, Simulator.filled_order, fillPrice,
    barTs, Simulator.reconcile_position, Simulator.record_trade, dictSet, dictErase,
    simA2, orderA, orderS, posA, tradeA]
  norm_num

/-- C1 counterexample: BUY 10 of token 1 at price 100 from cash 1,000,000
leaves cash 999,000 — not the claimed 998,000 — and the TradeRecord written by
the closing SELL carries quantity 0, not the claimed 10. -/
theorem C1_counterexample :
    simA_buy.map Simulator.cash = some 999000 ∧ ((999000 : ℚ) ≠ 998000) ∧
    (simA_sell.map fun s => s.trade_log.map TradeLog.quantity) = some [0] ∧
    ((0 : Int) ≠ 10) := by
  refine ⟨?_, by norm_num, ?_, by decide⟩
  · simp [simA_buy, simA_buy_eval, Except.toOption, simA1]
  · simp [simA_sell, simA_buy, simA_buy_eval, simA_sell_eval, Except.toOption,
      simA2, tradeA]

/-- C1 (amended): from a fresh engine with cash 1,000,000 and zero slippage,
BUY 10 of token 1 at price 100 leaves cash 999,000 and an open Position with
side LONG, quantity 10, entry price 100; the subsequent SELL 10 at price 110
appends exactly one TradeRecord with side LONG, entry 100, exit 110,
quantity 0 (the position's post-reduction quantity, which `_record_trade`
copies) and pnl 100, leaves cash 1,000,100, and empties the mapping. -/
theorem C1_amended_scenario :
    simA_buy = some simA1 ∧ simA1.cash = 999000 ∧
    dictGet simA1.positions 1 = some posA ∧ posA.side = "LONG" ∧
    posA.quantity = 10 ∧ posA.entry_price = 100 ∧
    simA_sell = some simA2 ∧
    simA2.trade_log = [tradeA] ∧ tradeA.side = "LONG" ∧ tradeA.entry_price = 100 ∧
    tradeA.exit_price = 110 ∧ tradeA.quantity = 0 ∧ tradeA.pnl = 100 ∧
    simA2.cash = 1000100 ∧ dictGet simA2.positions 1 = none := by
  refine ⟨?_, rfl, by decide, rfl, rfl, rfl, ?_, rfl, rfl, rfl, rfl, rfl, rfl, rfl, rfl⟩
  · simp [simA_buy, simA_buy_eval, Except.toOption]
  · simp [simA_sell, simA_buy, simA_buy_eval, simA_sell_eval, Except.toOption]

/-! ## The positive-quantity invariant across `place_order` -/

/-- C2 counterexample: after BUY 10, the opposite-direction SELL 15 (whose
quantity exceeds the open quantity) leaves a Position with quantity −5 in the
mapping — the claimed invariant fails. -/
theorem C2_counterexample :
    (simA_oversell.map fun s => (dictGet s.positions 1).map Position.quantity) =
      some (some (-5)) ∧ ¬ (0 < (-5 : Int)) := by
  refine ⟨?_, by decide⟩
  simp only [simA_oversell, simA_buy, simA_buy_eval, Except.toOption, Option.bind]
  simp [simA1, mdA, Simulator.place_order, Simulator.get_market_price, dictGet,
    lastCloseUpTo, pyUpper_SELL, Simulator.book_order, Simulator.filled_order,
    fillPrice, barTs, Simulator.reconcile_position, Simulator.record_trade,
    dictSet, dictErase, orderA, posA]

/-- C2 (amended): provided every open position has positive quantity, the
order quantity is positive, and an opposite-direction order never exceeds the
open quantity, `place_order` preserves the invariant that every position in
the mapping has strictly positive quantity (an order that reduces a position
to exactly zero removes it).  The counterexample shows the unamended claim —
which includes oversized opposite-direction orders — is false. -/
theorem C2_positive_quantity_invariant (s : Simulator) (token : Int)
    (symbol side : String) (quantity : Int) (dt_index : Nat) (s' : Simulator)
    (o : Order)
    (hinv : posInvariant s)
    (hqpos : 0 < quantity)
    (hred : ∀ pos, dictGet s.positions token = some pos →
      ((pos.side = "LONG" ∧ pyUpper side = "SELL") ∨
       (pos.side ≠ "LONG" ∧ pyUpper side = "BUY")) → quantity ≤ pos.quantity)
    (h : s.place_order token symbol side quantity dt_index = .ok (s', o)) :
    posInvariant s' := by
  obtain ⟨hside, price, hprice, ho, hs'⟩ := place_order_ok_elim h
  subst hs'
  exact reconcile_preserves_inv _ token symbol (pyUpper side) quantity _ _
    (fun kp hkp => hinv kp hkp) hqpos hside
    (fun pos hpos hdir => hred pos hpos hdir)

/-! ## Concrete witnesses -/

theorem C2_witness :
    (simA.place_order 1 "A" "BUY" 10 0 = .ok (simA1, orderA)) ∧ posInvariant simA1 :=
  ⟨simA_buy_eval,
   C2_positive_quantity_invariant simA 1 "A" "BUY" 10 0 simA1 orderA
     (by intro kp hkp; simp [simA, Simulator.init, Simulator.set_time_index] at hkp)
     (by decide)
     (by intro pos hpos _;
         simp [simA, Simulator.init, Simulator.set_time_index, dictGet] at hpos)
     simA_buy_eval⟩

theorem C3_witness :
    ∃ s' t, runOrders simA1 1 "A" (if posA.side = "LONG" then "SELL" else "BUY")
        [(4, 1), (6, 1)] = .ok s' ∧
      dictGet s'.positions 1 = none ∧
      s'.trade_log = simA1.trade_log ++ [t] ∧
      t.pnl = posA.realised_pnl +
        ([(4, 1), (6, 1)].map (reducePnl simA1 1 posA.side posA.entry_price)).sum :=
  C3_full_close_emits_one_trade simA1 1 "A" [(4, 1), (6, 1)] posA
    (by decide) (by decide) (by decide) (by decide) (by decide)
    (by
      intro st hst
      simp only [List.mem_cons, List.not_mem_nil, or_false] at hst
      rcases hst with rfl | rfl
      · exact ⟨110, by decide⟩
      · exact ⟨110, by decide⟩)

theorem C4_witness :
    ∃ s' pos, runOrders simA 1 "A" "BUY" [(10, 0), (30, 1)] = .ok s' ∧
      dictGet s'.positions 1 = some pos ∧
      pos.side = (if pyUpper "BUY" = "BUY" then "LONG" else "SHORT") ∧
      pos.quantity = ([(10, 0), (30, 1)].map Prod.fst).sum ∧
      pos.entry_price =
        (([(10, 0), (30, 1)].map fun st =>
          execPriceAt simA 1 (pyUpper "BUY") st.2 * (st.1 : ℚ)).sum) /
          ((([(10, 0), (30, 1)].map Prod.fst).sum : Int) : ℚ) :=
  C4_weighted_average_entry simA 1 "A" "BUY" [(10, 0), (30, 1)]
    (by decide) (Or.inl (by decide)) (by decide) (by decide)
    (by
      intro st hst
      simp only [List.mem_cons, List.not_mem_nil, or_false] at hst
      rcases hst with rfl | rfl
      · exact ⟨100, by decide⟩
      · exact ⟨110, by decide⟩)

theorem C5_witness :
    ∃ s', simA1.square_off_all 1 = .ok s' ∧ s'.positions = [] ∧
      s'.trade_log.length = simA1.trade_log.length + simA1.positions.length ∧
      s'.orders.map (fun o => (o.side, o.quantity)) =
        simA1.orders.map (fun o => (o.side, o.quantity)) ++
          simA1.positions.map
            (fun kp => (if kp.2.side = "LONG" then "SELL" else "BUY", kp.2.quantity)) :=
  C5_square_off_all simA1 1
    (by
      intro kp hkp
      simp only [simA1, List.mem_singleton] at hkp
      subst hkp
      exact ⟨110, by decide⟩)

theorem C6_witness : sEmpty.check_max_loss 0 = .ok (sEmpty, false) :=
  (C6_check_max_loss sEmpty 0).1 rfl

theorem C7_witness :
    (pyUpper "xyz" ≠ "BUY" ∧ pyUpper "xyz" ≠ "SELL") ∧
    simA.place_order 1 "A" "xyz" 5 0 = .error (.invalidSide, simA) :=
  ⟨⟨by decide, by decide⟩,
   C7_invalid_side_rejected simA 1 "A" "xyz" 5 0 (by decide) (by decide)⟩

theorem C8_witness : sLate.get_market_price 1 0 = .ok none :=
  C8_no_row_returns_nan sLate 1 0 [(5, 100)] [0] (by decide) rfl (by decide)
    (by decide)

theorem C9_witness :
    (sEmpty.place_order 1 "A" "xyz" 5 0 = .error (.invalidSide, sEmpty)) ∧
    (sEmpty.cash = sEmpty.cash ∧ sEmpty.positions = sEmpty.positions ∧
     sEmpty.orders = sEmpty.orders ∧ sEmpty.trade_log = sEmpty.trade_log ∧
     sEmpty.order_id_counter = sEmpty.order_id_counter) := by
  have h : sEmpty.place_order 1 "A" "xyz" 5 0 = .error (.invalidSide, sEmpty) := by decide
  exact ⟨h, C9_place_order_atomic_on_failure sEmpty 1 "A" "xyz" 5 0 .invalidSide sEmpty h⟩

theorem C10_witness :
    (sEmpty.mark_to_market 0 = .ok (sEmpty, 0)) ∧ sEmpty = sEmpty :=
  ⟨rfl, (C10_mark_to_market_read_only sEmpty 0).1 sEmpty 0 rfl⟩
